import Mathlib

/-!
Verification of the interview-transcript coding pipeline (`main.py`).

The development shallowly embeds the five pipeline stages:
`load_transcript`, `extract_interviewee_text`, `load_themes`,
`code_transcript_with_themes` and `process_folder`.  External
collaborators (the filesystem, the `polars` table reader, the `docx`
reader, the `ollama` chat endpoint and `json.loads`) are modelled as
components of an explicit environment record, since the repository
treats them as black boxes.  Character-level operations (`str.strip`,
`re` matching with `(?i)`, `\s`) are modelled over ASCII, which covers
every label token and delimiter the program's regular expressions
mention.
-/

/-- Python `\s` on the ASCII range: the whitespace class used by both
`str.strip()` and the `\s*` parts of the speaker-label regexes. -/
def pyIsSpace (c : Char) : Bool :=
  c == ' ' || c == '\t' || c == '\n' || c == '\r' || c == '\x0b' || c == '\x0c'

/-- ASCII lower-casing, the effect of the `(?i)` flag on the regexes'
literal label tokens. -/
def pyLower (c : Char) : Char :=
  if 'A' ≤ c ∧ c ≤ 'Z' then Char.ofNat (c.toNat + 32) else c

/-- Python `str.strip()`: drop whitespace on both ends. -/
def pyStrip (cs : List Char) : List Char :=
  ((cs.dropWhile pyIsSpace).reverse.dropWhile pyIsSpace).reverse

/-- After a label token, the regexes `^(tok)\s*[:\-]` / `^(tok)\s*[:\-]\s*`
require optional whitespace and then a colon or hyphen; the `re.sub`
variant also consumes the whitespace after the delimiter.  `some rest`
is the text after the stripped `\s*[:\-]\s*`; `none` means the
delimiter part fails to match.  (`\s*` before a non-space delimiter is
equivalent to skipping the maximal whitespace run.) -/
def delimAfter (cs : List Char) : Option (List Char) :=
  match cs.dropWhile pyIsSpace with
  | d :: rest => if d == ':' || d == '-' then some (rest.dropWhile pyIsSpace) else none
  | [] => none

/-- Matching one alternation branch `tok` of `^(toks)\s*[:\-]\s*`
case-insensitively at the start of `cs`: `some rest` strips the label,
delimiter, and following whitespace. -/
def stripTok : List Char → List Char → Option (List Char)
  | [], cs => delimAfter cs
  | _ :: _, [] => none
  | t :: ts, c :: cs => if pyLower c = t then stripTok ts cs else none

/-- The whole alternation, branches tried left to right exactly as the
regex engine does. -/
def stripLabel : List (List Char) → List Char → Option (List Char)
  | [], _ => none
  | tok :: toks, cs =>
    match stripTok tok cs with
    | some rest => some rest
    | none => stripLabel toks cs

/-- `(participant|interviewee|p|resp|r)` from
`re.match(r"(?i)^(participant|interviewee|p|resp|r)\s*[:\-]", line)`. -/
def intervieweeTokens : List (List Char) :=
  [['p','a','r','t','i','c','i','p','a','n','t'],
   ['i','n','t','e','r','v','i','e','w','e','e'],
   ['p'],
   ['r','e','s','p'],
   ['r']]

/-- `(interviewer|int|i)` from
`re.match(r"(?i)^(interviewer|int|i)\s*[:\-]", line)`. -/
def interviewerTokens : List (List Char) :=
  [['i','n','t','e','r','v','i','e','w','e','r'],
   ['i','n','t'],
   ['i']]

/-- Whether `re.match` of the label alternation succeeds on a line. -/
def matchLabel (toks : List (List Char)) (cs : List Char) : Bool :=
  (stripLabel toks cs).isSome

/-- The per-line loop of `extract_interviewee_text`: strip the line,
skip it when blank, keep interviewee lines with their label removed,
drop interviewer lines, and drop lines matching neither pattern
(the `cleaned_lines.append(line)` fallback is commented out in the
source). -/
def extractLines : List (List Char) → List (List Char)
  | [] => []
  | l :: ls =>
    if pyStrip l = [] then extractLines ls
    else
      match stripLabel intervieweeTokens (pyStrip l) with
      | some rest => rest :: extractLines ls
      | none =>
        if matchLabel interviewerTokens (pyStrip l) then extractLines ls
        else extractLines ls

/-- Python `full_text.split("\n")` (note `"".split("\n") == [""]`). -/
def splitOnNewline : List Char → List (List Char)
  | [] => [[]]
  | c :: rest =>
    if c = '\n' then [] :: splitOnNewline rest
    else
      match splitOnNewline rest with
      | [] => [[c]]
      | l :: ls => (c :: l) :: ls

/-- Python `"\n".join(lines)` on character lists. -/
def joinLines : List (List Char) → List Char
  | [] => []
  | [l] => l
  | l :: ls => l ++ '\n' :: joinLines ls

/-- `extract_interviewee_text` (main.py, lines 31-51): split on
newlines, filter/strip the speaker labels per line, and re-join the
retained remainders with newlines. -/
def extract_interviewee_text (full_text : String) : String :=
  String.mk (joinLines (extractLines (splitOnNewline full_text.data)))

/-- Python `s.endswith(suffix)`. -/
def pyEndsWith (suffix s : String) : Bool :=
  List.isSuffixOf suffix.data s.data

/-- Python `"\n".join(strings)`. -/
def joinNl : List String → String
  | [] => ""
  | [s] => s
  | s :: rest => s ++ "\n" ++ joinNl rest

/-- `os.path.splitext(name)[0]` for a bare filename (no directory
separators, as produced by `os.listdir`): the extension starts at the
last dot, except that leading dots of the name never open an
extension. -/
def dropLastExt (cs : List Char) : List Char :=
  ((cs.reverse.dropWhile (fun c => c ≠ '.')).drop 1).reverse

/-- Stem part of `os.path.splitext` on a bare filename. -/
def pySplitextStem (name : String) : String :=
  if (name.data.dropWhile (fun c => c = '.')).contains '.' then
    String.mk (name.data.takeWhile (fun c => c = '.') ++
      dropLastExt (name.data.dropWhile (fun c => c = '.')))
  else name

/-- A `polars` DataFrame: named columns plus rows of cell values
(strings are all the claims need).  `iter_rows(named=True)` yields each
row as the dict `zip(df.columns, row)`. -/
structure Table where
  columns : List String
  rows : List (List String)
deriving DecidableEq

/-- Lookup in the dict `zip(cols, vals)` that `iter_rows(named=True)`
yields: `none` is Python's `KeyError`. -/
def dictGet : List String → List String → String → Option String
  | c :: cs, v :: vs, key => if c = key then some v else dictGet cs vs key
  | _, _, _ => none

/-- A JSON value, the result of `json.loads` on the model's reply. -/
inductive JValue where
  | jnull
  | jbool (b : Bool)
  | jnum (n : Int)
  | jstr (s : String)
  | jarr (elems : List JValue)
  | jobj (fields : List (String × JValue))

/-- Errors the pipeline can raise.  `unsupportedFormat` carries the
`ValueError` message of `load_transcript`; `missingColumn` is the
`KeyError` on a codebook row dict; `modelResponseParse` is
`json.JSONDecodeError` and carries the text that failed to parse;
read failures stand for ordinary I/O errors from `open`/`Document`/
`read_excel`/`read_csv`; `dataFrameShape` stands for `pl.DataFrame`
rejecting its argument. -/
inductive RunError where
  | unsupportedFormat (msg : String)
  | transcriptReadFailure (path : String)
  | themesReadFailure (path : String)
  | missingColumn (col : String)
  | modelResponseParse (content : String)
  | dataFrameShape
deriving DecidableEq

/-- The black-box collaborators of the script: the directory listing
(`os.listdir`), text-file contents, `docx` paragraph extraction, the
two `polars` readers, the `ollama` chat endpoint (message content as a
function of the system and user prompts), and `json.loads` (`none` is
a decode error). -/
structure RunEnv where
  listing : List String
  txtContent : String → Option String
  docxParagraphs : String → Option (List String)
  excelTable : String → Option Table
  csvTable : String → Option Table
  chatContent : String → String → String
  jsonLoads : String → Option JValue

/-- `load_transcript` (main.py, lines 14-24): dispatch on the filename
suffix; `.txt` reads the file, `.docx` joins the document's paragraphs
with newlines, anything else raises `ValueError` naming the path. -/
def load_transcript (env : RunEnv) (path : String) : Except RunError String :=
  if pyEndsWith ".txt" path then
    match env.txtContent path with
    | some text => .ok text
    | none => .error (.transcriptReadFailure path)
  else if pyEndsWith ".docx" path then
    match env.docxParagraphs path with
    | some ps => .ok (joinNl ps)
    | none => .error (.transcriptReadFailure path)
  else .error (.unsupportedFormat ("Unsupported file format: " ++ path))

/-- The table `load_themes` reads: `pl.read_excel` for `.xlsx` paths,
`pl.read_csv` for every other path (the source has no further
extension check). -/
def themeTable (env : RunEnv) (theme_path : String) : Option Table :=
  if pyEndsWith ".xlsx" theme_path then env.excelTable theme_path
  else env.csvTable theme_path

/-- The row loop of `load_themes`: each row dict is read at `'code'`
then `'definition'` (the f-string evaluates in that order), producing
`- <code>: <definition>`; a missing key raises immediately. -/
def themeLines (cols : List String) : List (List String) → Except RunError (List String)
  | [] => .ok []
  | vals :: rest =>
    match dictGet cols vals "code" with
    | none => .error (.missingColumn "code")
    | some c =>
      match dictGet cols vals "definition" with
      | none => .error (.missingColumn "definition")
      | some d =>
        match themeLines cols rest with
        | .ok ls => .ok (("- " ++ c ++ ": " ++ d) :: ls)
        | .error e => .error e

/-- `load_themes` (main.py, lines 58-68). -/
def load_themes (env : RunEnv) (theme_path : String) : Except RunError String :=
  match themeTable env theme_path with
  | none => .error (.themesReadFailure theme_path)
  | some df =>
    match themeLines df.columns df.rows with
    | .ok ls => .ok (joinNl ls)
    | .error e => .error e

/-- The system prompt of `code_transcript_with_themes`, with the
codebook block interpolated at `{theme_prompt}`. -/
def systemPromptFor (theme_prompt : String) : String :=
  "\nYou are a qualitative analysis assistant. You will extract quotes from the transcript\nand assign theme codes.\n\nRULES:\n- Cover 100% of interviewee content.\n- Each sentence must appear in exactly one quote.\n- A quote can contain 1–many sentences if they express the same theme.\n- Do NOT omit or combine unrelated content.\n- Do NOT include any interviewer lines.\n- Return valid JSON only: list of \x7b\"quote\", \"theme\", \"explanation\"\x7d.\n\nTHEMES:\n"
    ++ theme_prompt ++ "\n"

/-- The user prompt of `code_transcript_with_themes`, with the filtered
transcript interpolated at `{text}`. -/
def userPromptFor (text : String) : String :=
  "Here is the full interviewee-only transcript:\n\n" ++ text ++
    "\n\nExtract all theme-coded quotes now."

/-- `.strip()` on a whole string. -/
def pyStripStr (s : String) : String :=
  String.mk (pyStrip s.data)

/-- `code_transcript_with_themes` (main.py, lines 75-103): build the
two prompts, make one chat call, strip the reply's content and parse
it with `json.loads`. -/
def code_transcript_with_themes (env : RunEnv) (text theme_prompt : String) :
    Except RunError JValue :=
  match env.jsonLoads
      (pyStripStr (env.chatContent (systemPromptFor theme_prompt) (userPromptFor text))) with
  | some v => .ok v
  | none =>
    .error (.modelResponseParse
      (pyStripStr (env.chatContent (systemPromptFor theme_prompt) (userPromptFor text))))

/-- One parsed JSON item as a row dict, on the shape the pipeline
expects (`pl.DataFrame` on a list of flat string-valued dicts);
anything else is outside the modelled shape. -/
def itemFields : List (String × JValue) → Option (List (String × String))
  | [] => some []
  | (k, .jstr s) :: rest =>
    match itemFields rest with
    | some r => some ((k, s) :: r)
    | none => none
  | _ => none

/-- A JSON array element as a row dict. -/
def itemRow : JValue → Option (List (String × String))
  | .jobj fields => itemFields fields
  | _ => none

/-- Python `dict[k]` on an association list. -/
def assocGet (r : List (String × String)) (key : String) : Option String :=
  match r.find? (fun p => p.1 = key) with
  | some p => some p.2
  | none => none

/-- The values of one row dict in a fixed column order. -/
def rowVals : List String → List (String × String) → Option (List String)
  | [], _ => some []
  | k :: ks, r =>
    match assocGet r k, rowVals ks r with
    | some v, some vs => some (v :: vs)
    | _, _ => none

/-- All rows of the DataFrame in the column order of the first item. -/
def itemsVals (cols : List String) : List JValue → Option (List (List String))
  | [] => some []
  | it :: rest =>
    match itemRow it with
    | none => none
    | some r =>
      match rowVals cols r, itemsVals cols rest with
      | some vs, some rows => some (vs :: rows)
      | _, _ => none

/-- `pl.DataFrame(coded_items)` on the shapes the claims cover: a JSON
array of flat string-valued objects becomes a table whose columns are
the first object's keys in order and whose rows are the objects'
values; `pl.DataFrame([])` is the empty table. -/
def dataFrameOfItems : JValue → Option Table
  | .jarr [] => some ⟨[], []⟩
  | .jarr (it :: rest) =>
    match itemRow it with
    | none => none
    | some r0 =>
      match itemsVals (r0.map Prod.fst) (it :: rest) with
      | some rows => some ⟨r0.map Prod.fst, rows⟩
      | none => none
  | _ => none

/-- `filename.endswith(".txt") or filename.endswith(".docx")`, the
filter of `process_folder`. -/
def isTranscriptName (filename : String) : Bool :=
  pyEndsWith ".txt" filename || pyEndsWith ".docx" filename

/-- The observable outcome of a `process_folder` run: the transcripts
sent to the model (one entry per chat call, in call order), the files
written by `df.write_csv` as (path, table) pairs in write order, and
the uncaught exception that ended the run, if any (everything after it
is never attempted). -/
structure RunResult where
  modelCalls : List String
  outputs : List (String × Table)
  error : Option RunError
deriving DecidableEq

/-- The `for filename in os.listdir(...)` loop body of
`process_folder`: skip names without a transcript suffix, otherwise
load → filter → code → `pl.DataFrame` → write
`coded_<stem>.csv` into the output directory, stopping at the first
uncaught error.  `os.path.join` is modelled with the POSIX
separator. -/
def processFiles (env : RunEnv) (theme_prompt transcript_dir output_dir : String) :
    List String → RunResult
  | [] => ⟨[], [], none⟩
  | filename :: rest =>
    if isTranscriptName filename then
      match load_transcript env (transcript_dir ++ "/" ++ filename) with
      | .error e => ⟨[], [], some e⟩
      | .ok raw =>
        match code_transcript_with_themes env (extract_interviewee_text raw) theme_prompt with
        | .error e => ⟨[extract_interviewee_text raw], [], some e⟩
        | .ok coded_items =>
          match dataFrameOfItems coded_items with
          | none => ⟨[extract_interviewee_text raw], [], some .dataFrameShape⟩
          | some df =>
            match processFiles env theme_prompt transcript_dir output_dir rest with
            | ⟨calls, outs, err⟩ =>
              ⟨extract_interviewee_text raw :: calls,
               (output_dir ++ "/" ++ ("coded_" ++ pySplitextStem filename ++ ".csv"), df) :: outs,
               err⟩
    else processFiles env theme_prompt transcript_dir output_dir rest

/-- `process_folder` (main.py, lines 110-136): load the codebook once,
then run the listing loop.  (`os.makedirs(output_dir, exist_ok=True)`
is a side effect with no bearing on any claim.) -/
def process_folder (env : RunEnv) (transcript_dir theme_path output_dir : String) :
    RunResult :=
  match load_themes env theme_path with
  | .error e => ⟨[], [], some e⟩
  | .ok theme_prompt => processFiles env theme_prompt transcript_dir output_dir env.listing

/-- An environment in which every external call fails or is empty;
concrete scenarios below override the fields they need. -/
def baseEnv : RunEnv :=
  { listing := []
    txtContent := fun _ => none
    docxParagraphs := fun _ => none
    excelTable := fun _ => none
    csvTable := fun _ => none
    chatContent := fun _ _ => ""
    jsonLoads := fun _ => none }

/-- A directory with one `.txt`, one `.docx` and one `.md` transcript
candidate, a well-formed codebook, and a model that answers with an
empty JSON array. -/
def exampleEnv : RunEnv :=
  { baseEnv with
    listing := ["a.txt", "b.docx", "c.md"]
    txtContent := fun p => if p = "transcripts/a.txt" then some "P: hi" else none
    docxParagraphs := fun p => if p = "transcripts/b.docx" then some ["P: yo"] else none
    csvTable := fun p =>
      if p = "themes.csv" then some ⟨["code", "definition"], [["A", "foo"]]⟩ else none
    chatContent := fun _ _ => "[]"
    jsonLoads := fun s => if s = "[]" then some (.jarr []) else none }

/-- A codebook whose only column is `theme`: both required columns are
absent, and there is one data row. -/
def envMissingCol : RunEnv :=
  { baseEnv with
    csvTable := fun p => if p = "themes.csv" then some ⟨["theme"], [["A"]]⟩ else none }

/-- A header-only codebook: the parsed table has a column `foo` (so it
lacks both `code` and `definition`) and no data rows. -/
def envEmptyCodebook : RunEnv :=
  { baseEnv with
    csvTable := fun p => if p = "themes.csv" then some ⟨["foo"], []⟩ else none }

/-- A codebook stored under an unrecognised extension `.pdf` whose
bytes nevertheless parse as CSV. -/
def envPdfCodebook : RunEnv :=
  { baseEnv with
    csvTable := fun p =>
      if p = "themes.pdf" then some ⟨["code", "definition"], [["A", "foo"]]⟩ else none }

/-- A model that never answers JSON: `json.loads` fails on every
reply. -/
def envBadModel : RunEnv :=
  { baseEnv with
    listing := ["a.txt"]
    txtContent := fun p => if p = "transcripts/a.txt" then some "P: hi" else none
    csvTable := fun p =>
      if p = "themes.csv" then some ⟨["code", "definition"], [["A", "foo"]]⟩ else none
    chatContent := fun _ _ => "Sorry, I cannot do that." }

/-- A stripped line carries a speaker label when one of the two
alternations matches it. -/
def labeledLine (cs : List Char) : Bool :=
  (stripLabel intervieweeTokens cs).isSome || matchLabel interviewerTokens cs

/-- Every non-empty line of the text (after stripping) carries a
speaker label. -/
def allLinesLabeled (t : String) : Bool :=
  (splitOnNewline t.data).all (fun l => (pyStrip l).isEmpty || labeledLine (pyStrip l))

/-- The JSON value the model is instructed to return: an array of
objects with exactly the keys `quote`, `theme`, `explanation` (here
all string-valued), one object per coded quote. -/
def codedItemsJson (qte : List (String × String × String)) : JValue :=
  .jarr (qte.map (fun x =>
    .jobj [("quote", .jstr x.1), ("theme", .jstr x.2.1), ("explanation", .jstr x.2.2)]))

/-- A model that always answers with the single coded quote
`q1`/`t1`/`e1` as well-formed JSON. -/
def envGoodModel : RunEnv :=
  { baseEnv with
    chatContent := fun _ _ => "ok"
    jsonLoads := fun _ => some (codedItemsJson [("q1", "t1", "e1")]) }

example :
    extract_interviewee_text
      "Interviewer: How are you?\nParticipant: I am fine.\nR: Great weather." =
      "I am fine.\nGreat weather." := by decide

example :
    process_folder exampleEnv "transcripts" "themes.csv" "coded_output" =
      ⟨["hi", "yo"],
       [("coded_output/coded_a.csv", ⟨[], []⟩), ("coded_output/coded_b.csv", ⟨[], []⟩)],
       none⟩ := by decide

example :
    process_folder envMissingCol "transcripts" "themes.csv" "coded_output" =
      ⟨[], [], some (.missingColumn "code")⟩ := by decide

example :
    load_themes envEmptyCodebook "themes.csv" = .ok "" := rfl

example :
    load_themes envPdfCodebook "themes.pdf" = .ok "- A: foo" := rfl

example :
    process_folder envBadModel "transcripts" "themes.csv" "coded_output" =
      ⟨["hi"], [], some (.modelResponseParse "Sorry, I cannot do that.")⟩ := by decide

example : extract_interviewee_text "P: hello" = "hello" := by decide
example : extract_interviewee_text "hello" = "" := by decide
example : extract_interviewee_text "P: a\nP:\nP: b" = "a\n\nb" := by decide
example : pySplitextStem "a.tar.gz" = "a.tar" := by decide
example : pySplitextStem "noext" = "noext" := by decide
example : pySplitextStem ".bashrc" = ".bashrc" := by decide
example : pySplitextStem "a.txt" = "a" := by decide

/-! ### Lemmas about the speaker-label matcher -/

lemma stripTok_cons_isSome {t : Char} {ts cs : List Char} :
    (stripTok (t :: ts) cs).isSome = true ↔
      ∃ c cs', cs = c :: cs' ∧ pyLower c = t ∧ (stripTok ts cs').isSome = true := by
  cases cs with
  | nil => simp [stripTok]
  | cons c cs' =>
    constructor
    · intro hh
      by_cases h : pyLower c = t
      · exact ⟨c, cs', rfl, h, by simpa [stripTok, h] using hh⟩
      · simp [stripTok, h] at hh
    · rintro ⟨c1, cs1, heq, hl, hh⟩
      injection heq with e1 e2
      subst e1; subst e2
      simp [stripTok, hl, hh]

lemma delimAfter_isSome_head {cs : List Char} (h : (delimAfter cs).isSome = true) :
    ∃ c cs', cs = c :: cs' ∧ pyLower c ≠ 'e' ∧ pyLower c ≠ 'n' := by
  cases cs with
  | nil => simp [delimAfter] at h
  | cons c cs' =>
    refine ⟨c, cs', rfl, ?_⟩
    by_cases hs : pyIsSpace c = true
    · have hc : ((((c = ' ' ∨ c = '\t') ∨ c = '\n') ∨ c = '\r') ∨ c = '\x0b') ∨ c = '\x0c' := by
        simpa [pyIsSpace] using hs
      rcases hc with ((((h1 | h1) | h1) | h1) | h1) | h1 <;> subst h1 <;>
        exact ⟨by decide, by decide⟩
    · have hdrop : (c :: cs').dropWhile pyIsSpace = c :: cs' := by
        simp [List.dropWhile, hs]
      rw [delimAfter, hdrop] at h
      by_cases hd : (c == ':' || c == '-') = true
      · have : c = ':' ∨ c = '-' := by simpa using hd
        rcases this with h1 | h1 <;> subst h1 <;> exact ⟨by decide, by decide⟩
      · simp [hd] at h

lemma stripLabel_isSome_iff {toks : List (List Char)} {cs : List Char} :
    (stripLabel toks cs).isSome = true ↔ ∃ tok ∈ toks, (stripTok tok cs).isSome = true := by
  induction toks with
  | nil => simp [stripLabel]
  | cons t ts ih =>
    simp only [stripLabel]
    cases h : stripTok t cs with
    | some r =>
      simp only [Option.isSome_some, true_iff]
      exact ⟨t, by simp, by simp [h]⟩
    | none =>
      rw [ih]
      constructor
      · rintro ⟨tok, htok, hs⟩
        exact ⟨tok, by simp [htok], hs⟩
      · rintro ⟨tok, htok, hs⟩
        rcases List.mem_cons.mp htok with rfl | hmem
        · simp [h] at hs
        · exact ⟨tok, hmem, hs⟩

/-- The two label alternations are disjoint: a line that `re.match`es
the interviewer pattern `(interviewer|int|i)\s*[:\-]` cannot also match
the interviewee pattern `(participant|interviewee|p|resp|r)\s*[:\-]`.
All interviewer tokens begin with `i` (killing `participant`, `p`,
`resp`, `r`), and the delimiter required right after `int` or `i`
can never be the `e`/`n` that `interviewee` would need next, while
`interviewer` and `interviewee` differ at their last letter. -/
lemma interviewer_no_interviewee {cs : List Char}
    (h : matchLabel interviewerTokens cs = true) :
    stripLabel intervieweeTokens cs = none := by
  rcases stripLabel_isSome_iff.mp h with ⟨tok, htok, hsome⟩
  have hmem : tok = ['i','n','t','e','r','v','i','e','w','e','r'] ∨
      tok = ['i','n','t'] ∨ tok = ['i'] := by
    simpa [interviewerTokens] using htok
  rcases hmem with rfl | rfl | rfl
  · rw [stripTok_cons_isSome] at hsome
    obtain ⟨c0, cs0, rfl, h0, hsome⟩ := hsome
    rw [stripTok_cons_isSome] at hsome
    obtain ⟨c1, cs1, rfl, h1, hsome⟩ := hsome
    rw [stripTok_cons_isSome] at hsome
    obtain ⟨c2, cs2, rfl, h2, hsome⟩ := hsome
    rw [stripTok_cons_isSome] at hsome
    obtain ⟨c3, cs3, rfl, h3, hsome⟩ := hsome
    rw [stripTok_cons_isSome] at hsome
    obtain ⟨c4, cs4, rfl, h4, hsome⟩ := hsome
    rw [stripTok_cons_isSome] at hsome
    obtain ⟨c5, cs5, rfl, h5, hsome⟩ := hsome
    rw [stripTok_cons_isSome] at hsome
    obtain ⟨c6, cs6, rfl, h6, hsome⟩ := hsome
    rw [stripTok_cons_isSome] at hsome
    obtain ⟨c7, cs7, rfl, h7, hsome⟩ := hsome
    rw [stripTok_cons_isSome] at hsome
    obtain ⟨c8, cs8, rfl, h8, hsome⟩ := hsome
    rw [stripTok_cons_isSome] at hsome
    obtain ⟨c9, cs9, rfl, h9, hsome⟩ := hsome
    rw [stripTok_cons_isSome] at hsome
    obtain ⟨c10, cs10, rfl, h10, hsome⟩ := hsome
    simp [stripLabel, intervieweeTokens, stripTok, h0, h1, h2, h3, h4, h5, h6, h7, h8, h9, h10]
  · rw [stripTok_cons_isSome] at hsome
    obtain ⟨c0, cs0, rfl, h0, hsome⟩ := hsome
    rw [stripTok_cons_isSome] at hsome
    obtain ⟨c1, cs1, rfl, h1, hsome⟩ := hsome
    rw [stripTok_cons_isSome] at hsome
    obtain ⟨c2, cs2, rfl, h2, hsome⟩ := hsome
    obtain ⟨c3, cs3, rfl, hne, hnn⟩ := delimAfter_isSome_head (by simpa [stripTok] using hsome)
    simp [stripLabel, intervieweeTokens, stripTok, h0, h1, h2, hne]
  · rw [stripTok_cons_isSome] at hsome
    obtain ⟨c0, cs0, rfl, h0, hsome⟩ := hsome
    obtain ⟨c1, cs1, rfl, hne, hnn⟩ := delimAfter_isSome_head (by simpa [stripTok] using hsome)
    simp [stripLabel, intervieweeTokens, stripTok, h0, hnn]

/-- If no line of the input matches the interviewee alternation,
nothing is ever appended to `cleaned_lines`. -/
lemma extractLines_eq_nil {ls : List (List Char)}
    (h : ∀ l ∈ ls, stripLabel intervieweeTokens (pyStrip l) = none) :
    extractLines ls = [] := by
  induction ls with
  | nil => rfl
  | cons l ls ih =>
    have hl := h l (by simp)
    have hrest := ih (fun x hx => h x (by simp [hx]))
    by_cases he : pyStrip l = []
    · simp [extractLines, he, hrest]
    · simp [extractLines, he, hl, hrest]

/-- String-level corollary: such inputs filter to the empty string. -/
lemma extract_eq_empty {t : String}
    (h : ∀ l ∈ splitOnNewline t.data, stripLabel intervieweeTokens (pyStrip l) = none) :
    extract_interviewee_text t = "" := by
  unfold extract_interviewee_text
  rw [extractLines_eq_nil h]
  rfl

/-- A line that is blank after stripping, or that matches neither
alternation, leaves the filter's output unchanged. -/
lemma extractLines_append_skip {ls₁ ls₂ : List (List Char)} {l : List Char}
    (h : pyStrip l = [] ∨
      (stripLabel intervieweeTokens (pyStrip l) = none ∧
        matchLabel interviewerTokens (pyStrip l) = false)) :
    extractLines (ls₁ ++ l :: ls₂) = extractLines (ls₁ ++ ls₂) := by
  induction ls₁ with
  | nil =>
    rcases h with he | ⟨hs, hm⟩
    · simp [extractLines, he]
    · by_cases he : pyStrip l = []
      · simp [extractLines, he]
      · simp [extractLines, he, hs, hm]
  | cons a as ih =>
    by_cases he : pyStrip a = []
    · simp [extractLines, he, ih]
    · cases ha : stripLabel intervieweeTokens (pyStrip a) with
      | some rest => simp [extractLines, he, ha, ih]
      | none => simp [extractLines, he, ha, ih]

/-- A non-blank line whose interviewee label strips to remainder
`rest` contributes exactly `rest` to the output, in position. -/
lemma extractLines_append_keep {ls₁ ls₂ : List (List Char)} {l rest : List Char}
    (hne : pyStrip l ≠ [])
    (hs : stripLabel intervieweeTokens (pyStrip l) = some rest) :
    extractLines (ls₁ ++ l :: ls₂) = extractLines ls₁ ++ rest :: extractLines ls₂ := by
  induction ls₁ with
  | nil => simp [extractLines, hne, hs]
  | cons a as ih =>
    by_cases he : pyStrip a = []
    · simp [extractLines, he, ih]
    · cases ha : stripLabel intervieweeTokens (pyStrip a) with
      | some r => simp [extractLines, he, ha, ih]
      | none => simp [extractLines, he, ha, ih]

/-- C1: On the input
`"Interviewer: How are you?\nParticipant: I am fine.\nR: Great weather."`,
`extract_interviewee_text` returns exactly `"I am fine.\nGreat weather."`:
the interviewer line is dropped, the `Participant:` and ambiguous `R:`
labels are both stripped (the interviewee alternation is tested before
the interviewer one, and `r` is in the interviewee set), and the
remainders keep their original order. -/
theorem c1_speaker_filter_example :
    extract_interviewee_text
      "Interviewer: How are you?\nParticipant: I am fine.\nR: Great weather." =
      "I am fine.\nGreat weather." := by decide

/-- C2: A text all of whose lines are blank or interviewer-labelled
filters to the empty string; more generally, any line that matches
neither label alternation (and any blank line) is dropped and
contributes nothing to the output. -/
theorem c2_interviewer_only_filters_to_empty :
    (∀ t : String,
        (∀ l ∈ splitOnNewline t.data,
            pyStrip l = [] ∨ matchLabel interviewerTokens (pyStrip l) = true) →
        extract_interviewee_text t = "") ∧
    (∀ (ls₁ ls₂ : List (List Char)) (l : List Char),
        pyStrip l ≠ [] →
        stripLabel intervieweeTokens (pyStrip l) = none →
        matchLabel interviewerTokens (pyStrip l) = false →
        extractLines (ls₁ ++ l :: ls₂) = extractLines (ls₁ ++ ls₂)) := by
  constructor
  · intro t ht
    apply extract_eq_empty
    intro l hl
    rcases ht l hl with he | hm
    · rw [he]; rfl
    · exact interviewer_no_interviewee hm
  · intro ls₁ ls₂ l hne hs hm
    exact extractLines_append_skip (Or.inr ⟨hs, hm⟩)

/-- Witness for C2 at concrete inputs: a transcript of one interviewer
line, one blank line and one `INT-` line filters to `""`, and an
unlabelled line (`"no label here"`) is dropped from any position. -/
theorem c2_interviewer_only_filters_to_empty_witness :
    extract_interviewee_text "Interviewer: hi\n\nINT- ok" = "" ∧
    extractLines ([['P',':',' ','a']] ++ ['n','o',' ','l','a','b','e','l'] :: []) =
      extractLines ([['P',':',' ','a']] ++ []) := by
  constructor
  · exact c2_interviewer_only_filters_to_empty.1 "Interviewer: hi\n\nINT- ok" (by decide)
  · exact c2_interviewer_only_filters_to_empty.2 [['P',':',' ','a']] []
      ['n','o',' ','l','a','b','e','l'] (by decide) (by decide) (by decide)

/-- C3 counterexample: `"P: hello"` is fully labelled, yet filtering it
twice gives `""` while filtering once gives `"hello"` — the first pass
strips the label, so the second pass finds an unlabelled line and
drops it.  The filter is therefore not idempotent on labelled input. -/
theorem c3_counterexample :
    allLinesLabeled "P: hello" = true ∧
    extract_interviewee_text (extract_interviewee_text "P: hello") ≠
      extract_interviewee_text "P: hello" := by decide

/-- C3 (amended): `extract_interviewee_text` is idempotent on every
input none of whose stripped lines matches the interviewee
alternation — e.g. texts of blank, interviewer-labelled, or unlabelled
lines — because both applications then return the empty string.  On
general labelled input idempotence fails (see the counterexample):
retained lines lose their labels, so a second pass drops them. -/
theorem c3_idempotent_without_interviewee_lines :
    ∀ t : String,
      (∀ l ∈ splitOnNewline t.data, stripLabel intervieweeTokens (pyStrip l) = none) →
      extract_interviewee_text (extract_interviewee_text t) =
        extract_interviewee_text t := by
  intro t ht
  rw [extract_eq_empty ht]
  decide

/-- Witness for C3 (amended) at `"Interviewer: x"`. -/
theorem c3_idempotent_without_interviewee_lines_witness :
    extract_interviewee_text (extract_interviewee_text "Interviewer: x") =
      extract_interviewee_text "Interviewer: x" :=
  c3_idempotent_without_interviewee_lines "Interviewer: x" (by decide)

/-- C10: A non-blank line that is just an interviewee label and its
delimiter (its stripped remainder is empty, e.g. `"P:"`) is retained
as an empty output line, so the output can contain consecutive
newlines — even though blank input lines are always skipped. -/
theorem c10_label_only_line_kept_empty :
    (∀ (ls₁ ls₂ : List (List Char)) (l : List Char),
        pyStrip l ≠ [] →
        stripLabel intervieweeTokens (pyStrip l) = some [] →
        extractLines (ls₁ ++ l :: ls₂) = extractLines ls₁ ++ [] :: extractLines ls₂) ∧
    extract_interviewee_text "P: a\nP:\nP: b" = "a\n\nb" ∧
    extract_interviewee_text "P: a\n\nP: b" = "a\nb" := by
  refine ⟨fun ls₁ ls₂ l hne hs => extractLines_append_keep hne hs, by decide, by decide⟩

/-- Witness for C10 at the label-only line `"P:"`. -/
theorem c10_label_only_line_kept_empty_witness :
    extractLines ([] ++ ['P',':'] :: []) = extractLines [] ++ [] :: extractLines [] :=
  c10_label_only_line_kept_empty.1 [] [] ['P',':'] (by decide) (by decide)

/-! ### Lemmas about the loaders and the folder driver -/

lemma dictGet_mem {cols vals : List String} {k v : String}
    (h : dictGet cols vals k = some v) : k ∈ cols := by
  induction cols generalizing vals with
  | nil => simp [dictGet] at h
  | cons c cs ih =>
    cases vals with
    | nil => simp [dictGet] at h
    | cons w ws =>
      by_cases hc : c = k
      · subst hc; simp
      · simp only [dictGet, if_neg hc] at h
        exact List.mem_cons_of_mem _ (ih h)

lemma themeLines_ok {cols : List String} {rows : List (List String)}
    (h : ∀ r ∈ rows, (dictGet cols r "code").isSome = true ∧
        (dictGet cols r "definition").isSome = true) :
    themeLines cols rows = .ok (rows.map (fun r =>
      "- " ++ ((dictGet cols r "code").getD "") ++ ": " ++
        ((dictGet cols r "definition").getD ""))) := by
  induction rows with
  | nil => rfl
  | cons r rest ih =>
    obtain ⟨h1, h2⟩ := h r (by simp)
    obtain ⟨c, hc⟩ := Option.isSome_iff_exists.mp h1
    obtain ⟨d, hd⟩ := Option.isSome_iff_exists.mp h2
    simp [themeLines, hc, hd, ih (fun x hx => h x (by simp [hx]))]

/-- C4: `load_transcript` dispatches purely on the filename suffix:
`.txt` paths return the text file's content, `.docx` paths return the
newline-joined paragraphs, and any other extension fails with the
`ValueError` message naming the path — for every environment alike, so
the file is never read in the unsupported case. -/
theorem c4_load_transcript_extension_dispatch :
    (∀ (env : RunEnv) (path text : String),
        pyEndsWith ".txt" path = true → env.txtContent path = some text →
        load_transcript env path = .ok text) ∧
    (∀ (env : RunEnv) (path : String) (ps : List String),
        pyEndsWith ".txt" path = false → pyEndsWith ".docx" path = true →
        env.docxParagraphs path = some ps →
        load_transcript env path = .ok (joinNl ps)) ∧
    (∀ (env : RunEnv) (path : String),
        pyEndsWith ".txt" path = false → pyEndsWith ".docx" path = false →
        load_transcript env path =
          .error (.unsupportedFormat ("Unsupported file format: " ++ path))) := by
  refine ⟨?_, ?_, ?_⟩
  · intro env path text h1 h2
    simp [load_transcript, h1, h2]
  · intro env path ps h1 h2 h3
    simp [load_transcript, h1, h2, h3]
  · intro env path h1 h2
    simp [load_transcript, h1, h2]

/-- Witness for C4: a well-formed `.txt` and `.docx` load, and a
`.pdf` path fails with the message naming the path. -/
theorem c4_load_transcript_extension_dispatch_witness :
    load_transcript exampleEnv "transcripts/a.txt" = .ok "P: hi" ∧
    load_transcript exampleEnv "transcripts/b.docx" = .ok "P: yo" ∧
    load_transcript baseEnv "report.pdf" =
      .error (.unsupportedFormat "Unsupported file format: report.pdf") :=
  ⟨c4_load_transcript_extension_dispatch.1 exampleEnv "transcripts/a.txt" "P: hi"
      (by decide) rfl,
   c4_load_transcript_extension_dispatch.2.1 exampleEnv "transcripts/b.docx" ["P: yo"]
      (by decide) (by decide) rfl,
   c4_load_transcript_extension_dispatch.2.2 baseEnv "report.pdf" (by decide) (by decide)⟩

/-- C5: On a codebook table whose rows all provide non-empty `code`
and `definition` fields, `load_themes` returns the newline-joined
block of `- <code>: <definition>` lines in row order; in particular
rows `A/foo`, `B/bar` give exactly `"- A: foo\n- B: bar"`. -/
theorem c5_load_themes_bullet_lines :
    (∀ (env : RunEnv) (path : String) (t : Table),
        themeTable env path = some t →
        (∀ r ∈ t.rows, ∃ c d, dictGet t.columns r "code" = some c ∧ c ≠ "" ∧
            dictGet t.columns r "definition" = some d ∧ d ≠ "") →
        load_themes env path =
          .ok (joinNl (t.rows.map (fun r =>
            "- " ++ ((dictGet t.columns r "code").getD "") ++ ": " ++
              ((dictGet t.columns r "definition").getD ""))))) ∧
    (∀ (env : RunEnv) (path : String),
        themeTable env path =
          some ⟨["code", "definition"], [["A", "foo"], ["B", "bar"]]⟩ →
        load_themes env path = .ok "- A: foo\n- B: bar") := by
  constructor
  · intro env path t hth hrows
    have hok : themeLines t.columns t.rows = .ok (t.rows.map (fun r =>
        "- " ++ ((dictGet t.columns r "code").getD "") ++ ": " ++
          ((dictGet t.columns r "definition").getD ""))) := by
      apply themeLines_ok
      intro r hr
      obtain ⟨c, d, hc, _, hd, _⟩ := hrows r hr
      exact ⟨by simp [hc], by simp [hd]⟩
    simp [load_themes, hth, hok]
  · intro env path hth
    simp [load_themes, hth, themeLines, dictGet]
    decide

/-- Witness for C5 on a concrete two-row codebook. -/
theorem c5_load_themes_bullet_lines_witness :
    load_themes
      { baseEnv with
        csvTable := fun p =>
          if p = "themes.csv" then
            some ⟨["code", "definition"], [["A", "foo"], ["B", "bar"]]⟩
          else none }
      "themes.csv" = .ok "- A: foo\n- B: bar" :=
  c5_load_themes_bullet_lines.2
    { baseEnv with
      csvTable := fun p =>
        if p = "themes.csv" then
          some ⟨["code", "definition"], [["A", "foo"], ["B", "bar"]]⟩
        else none }
    "themes.csv" rfl

/-- C6 counterexample: a header-only codebook (the parsed table has
column `foo` only — so it lacks both `code` and `definition` — and no
data rows, e.g. a CSV file consisting of the single header line `foo`)
does NOT make `load_themes` fail: the row loop runs zero times and the
loader returns the empty codebook text.  The claim's `MissingColumnError`
therefore does not cover the zero-row case. -/
theorem c6_counterexample :
    themeTable envEmptyCodebook "themes.csv" = some ⟨["foo"], []⟩ ∧
    "code" ∉ (Table.mk ["foo"] []).columns ∧
    "definition" ∉ (Table.mk ["foo"] []).columns ∧
    load_themes envEmptyCodebook "themes.csv" = .ok "" :=
  ⟨rfl, by decide, by decide, rfl⟩

/-- C6 (amended): when the codebook table has at least one data row
and lacks a required column (`code` or `definition`), `load_themes`
fails with the missing-column error on the first row, and because
`process_folder` loads the codebook before entering the transcript
loop, the whole run aborts with that error before any model call is
made and before any output is written. -/
theorem c6_missing_column_aborts_before_model :
    ∀ (env : RunEnv) (tdir tpath odir : String) (t : Table),
      themeTable env tpath = some t →
      t.rows ≠ [] →
      ("code" ∉ t.columns ∨ "definition" ∉ t.columns) →
      ∃ col, (col = "code" ∨ col = "definition") ∧
        load_themes env tpath = .error (.missingColumn col) ∧
        process_folder env tdir tpath odir = ⟨[], [], some (.missingColumn col)⟩ := by
  intro env tdir tpath odir t hth hne hcols
  cases hrows : t.rows with
  | nil => exact absurd hrows hne
  | cons v rest =>
    have hkey : themeLines t.columns (v :: rest) = .error (.missingColumn "code") ∨
        themeLines t.columns (v :: rest) = .error (.missingColumn "definition") := by
      cases hg : dictGet t.columns v "code" with
      | none => exact Or.inl (by simp [themeLines, hg])
      | some c =>
        cases hd : dictGet t.columns v "definition" with
        | none => exact Or.inr (by simp [themeLines, hg, hd])
        | some d =>
          rcases hcols with hmiss | hmiss
          · exact absurd (dictGet_mem hg) hmiss
          · exact absurd (dictGet_mem hd) hmiss
    rcases hkey with hk | hk
    · exact ⟨"code", Or.inl rfl, by simp [load_themes, hth, hrows, hk],
        by simp [process_folder, load_themes, hth, hrows, hk]⟩
    · exact ⟨"definition", Or.inr rfl, by simp [load_themes, hth, hrows, hk],
        by simp [process_folder, load_themes, hth, hrows, hk]⟩

/-- Witness for C6 (amended): a one-row codebook whose only column is
`theme` aborts the whole run with the `code` key error, making no
model call and writing nothing. -/
theorem c6_missing_column_aborts_before_model_witness :
    process_folder envMissingCol "transcripts" "themes.csv" "coded_output" =
      ⟨[], [], some (.missingColumn "code")⟩ := by
  obtain ⟨col, hcol, hload, hrun⟩ :=
    c6_missing_column_aborts_before_model envMissingCol "transcripts" "themes.csv"
      "coded_output" ⟨["theme"], [["A"]]⟩ rfl (by decide) (by decide)
  rcases hcol with rfl | rfl
  · exact hrun
  · have hcode : load_themes envMissingCol "themes.csv" =
        .error (.missingColumn "code") := rfl
    have h2 : RunError.missingColumn "code" = RunError.missingColumn "definition" := by
      injection hcode.symm.trans hload
    exact absurd h2 (by decide)

lemma themeLines_not_unsupported {cols : List String} {rows : List (List String)}
    {msg : String} :
    themeLines cols rows ≠ .error (.unsupportedFormat msg) := by
  induction rows with
  | nil => simp [themeLines]
  | cons v rest ih =>
    simp only [themeLines]
    cases hg : dictGet cols v "code" with
    | none => simp
    | some c =>
      cases hd : dictGet cols v "definition" with
      | none => simp
      | some d =>
        cases hr : themeLines cols rest with
        | ok ls => simp
        | error e =>
          intro h
          injection h with h2
          exact ih (by rw [hr, h2])

/-- C7 counterexample: `load_themes` performs no extension check for
the codebook.  On the unrecognised path `themes.pdf` (neither `.xlsx`
nor `.csv`) it does not raise any unsupported-format error — it hands
the file to the CSV reader and, when the bytes happen to parse as CSV,
returns the formatted codebook. -/
theorem c7_counterexample :
    pyEndsWith ".xlsx" "themes.pdf" = false ∧
    pyEndsWith ".csv" "themes.pdf" = false ∧
    load_themes envPdfCodebook "themes.pdf" = .ok "- A: foo" :=
  ⟨by decide, by decide, rfl⟩

/-- C7 (amended): the codebook loader dispatches only on `.xlsx`:
every other path — regardless of extension, `.csv` and `.pdf` alike —
is handed to the CSV reader and parsed; `load_themes` never fails with
an unsupported-format error. -/
theorem c7_codebook_non_xlsx_parsed_as_csv :
    ∀ (env : RunEnv) (path : String),
      pyEndsWith ".xlsx" path = false →
      themeTable env path = env.csvTable path ∧
      ∀ msg, load_themes env path ≠ .error (.unsupportedFormat msg) := by
  intro env path h
  refine ⟨by simp [themeTable, h], ?_⟩
  intro msg hcontra
  cases hth : themeTable env path with
  | none => simp [load_themes, hth] at hcontra
  | some df =>
    cases hl : themeLines df.columns df.rows with
    | ok ls => simp [load_themes, hth, hl] at hcontra
    | error e =>
      simp only [load_themes, hth, hl] at hcontra
      injection hcontra with h2
      exact themeLines_not_unsupported (hl.trans (by rw [h2]))

/-- Witness for C7 (amended) at the `.pdf` codebook path. -/
theorem c7_codebook_non_xlsx_parsed_as_csv_witness :
    themeTable envPdfCodebook "themes.pdf" = envPdfCodebook.csvTable "themes.pdf" ∧
    load_themes envPdfCodebook "themes.pdf" ≠
      .error (.unsupportedFormat "Unsupported file format: themes.pdf") := by
  obtain ⟨h1, h2⟩ :=
    c7_codebook_non_xlsx_parsed_as_csv envPdfCodebook "themes.pdf" (by decide)
  exact ⟨h1, h2 "Unsupported file format: themes.pdf"⟩

lemma processFiles_error_none {env : RunEnv} {tp tdir odir : String} {ls : List String}
    (h : (processFiles env tp tdir odir ls).error = none) :
    (processFiles env tp tdir odir ls).outputs.map Prod.fst =
      (ls.filter (fun f => isTranscriptName f)).map
        (fun f => odir ++ "/" ++ ("coded_" ++ pySplitextStem f ++ ".csv")) ∧
    (processFiles env tp tdir odir ls).modelCalls.length =
      (ls.filter (fun f => isTranscriptName f)).length := by
  induction ls with
  | nil => simp [processFiles]
  | cons f rest ih =>
    by_cases hf : isTranscriptName f
    · cases hload : load_transcript env (tdir ++ "/" ++ f) with
      | error e => simp [processFiles, hf, hload] at h
      | ok raw =>
        cases hcode : code_transcript_with_themes env (extract_interviewee_text raw) tp with
        | error e => simp [processFiles, hf, hload, hcode] at h
        | ok coded_items =>
          cases hdf : dataFrameOfItems coded_items with
          | none => simp [processFiles, hf, hload, hcode, hdf] at h
          | some df =>
            have h' : (processFiles env tp tdir odir rest).error = none := by
              simpa [processFiles, hf, hload, hcode, hdf] using h
            obtain ⟨ih1, ih2⟩ := ih h'
            constructor
            · simp [processFiles, hf, hload, hcode, hdf, ih1]
            · simp [processFiles, hf, hload, hcode, hdf, ih2]
    · have h' : (processFiles env tp tdir odir rest).error = none := by
        simpa [processFiles, hf] using h
      obtain ⟨ih1, ih2⟩ := ih h'
      constructor
      · simp [processFiles, hf, ih1]
      · simp [processFiles, hf, ih2]

/-- C8: `process_folder` skips directory entries without a supported
transcript extension entirely (removing such an entry from the listing
changes nothing — no load, no filter, no model call, no output);
on a run that finishes without error it writes exactly one output per
supported entry, named `coded_<stem>.csv` inside the output directory
and in listing order, with exactly one model call per supported entry;
concretely, a directory of one `.txt`, one `.docx` and one `.md` file
yields exactly the two outputs `coded_a.csv` and `coded_b.csv`. -/
theorem c8_one_output_per_supported_file :
    (∀ (env : RunEnv) (tp tdir odir : String) (ls₁ ls₂ : List String) (f : String),
        isTranscriptName f = false →
        processFiles env tp tdir odir (ls₁ ++ f :: ls₂) =
          processFiles env tp tdir odir (ls₁ ++ ls₂)) ∧
    (∀ (env : RunEnv) (tdir tpath odir : String),
        (process_folder env tdir tpath odir).error = none →
        (process_folder env tdir tpath odir).outputs.map Prod.fst =
          (env.listing.filter (fun f => isTranscriptName f)).map
            (fun f => odir ++ "/" ++ ("coded_" ++ pySplitextStem f ++ ".csv")) ∧
        (process_folder env tdir tpath odir).modelCalls.length =
          (env.listing.filter (fun f => isTranscriptName f)).length) ∧
    (process_folder exampleEnv "transcripts" "themes.csv" "coded_output").outputs.map
        Prod.fst = ["coded_output/coded_a.csv", "coded_output/coded_b.csv"] := by
  refine ⟨?_, ?_, by decide⟩
  · intro env tp tdir odir ls₁ ls₂ f hf
    induction ls₁ with
    | nil => simp [processFiles, hf]
    | cons a as ih =>
      by_cases ha : isTranscriptName a
      · cases hload : load_transcript env (tdir ++ "/" ++ a) with
        | error e => simp [processFiles, ha, hload]
        | ok raw =>
          cases hcode : code_transcript_with_themes env (extract_interviewee_text raw) tp with
          | error e => simp [processFiles, ha, hload, hcode]
          | ok coded_items =>
            cases hdf : dataFrameOfItems coded_items with
            | none => simp [processFiles, ha, hload, hcode, hdf]
            | some df => simp [processFiles, ha, hload, hcode, hdf, ih]
      · simp [processFiles, ha, ih]
  · intro env tdir tpath odir h
    cases hth : load_themes env tpath with
    | error e => simp [process_folder, hth] at h
    | ok tp =>
      have h' : (processFiles env tp tdir odir env.listing).error = none := by
        simpa [process_folder, hth] using h
      obtain ⟨h1, h2⟩ := processFiles_error_none h'
      exact ⟨by simpa [process_folder, hth] using h1, by simpa [process_folder, hth] using h2⟩

/-- Witness for C8: dropping the unsupported `c.md` from a listing
changes nothing, and the example run's outputs are the two coded
files. -/
theorem c8_one_output_per_supported_file_witness :
    processFiles exampleEnv "x" "transcripts" "out" ("c.md" :: []) =
      processFiles exampleEnv "x" "transcripts" "out" [] ∧
    (process_folder exampleEnv "transcripts" "themes.csv" "coded_output").outputs.map
        Prod.fst =
      (exampleEnv.listing.filter (fun f => isTranscriptName f)).map
        (fun f => "coded_output" ++ "/" ++ ("coded_" ++ pySplitextStem f ++ ".csv")) :=
  ⟨c8_one_output_per_supported_file.1 exampleEnv "x" "transcripts" "out" [] [] "c.md"
      (by decide),
   (c8_one_output_per_supported_file.2.1 exampleEnv "transcripts" "themes.csv"
      "coded_output" (by decide)).1⟩

lemma itemsVals_coded (qte : List (String × String × String)) :
    itemsVals ["quote", "theme", "explanation"]
        (qte.map (fun x => JValue.jobj
          [("quote", .jstr x.1), ("theme", .jstr x.2.1), ("explanation", .jstr x.2.2)])) =
      some (qte.map (fun x => [x.1, x.2.1, x.2.2])) := by
  induction qte with
  | nil => rfl
  | cons x xs ih => simp [itemsVals, itemRow, itemFields, rowVals, assocGet, ih]

/-- C9: When the model's reply parses as a JSON array of
`quote`/`theme`/`explanation` objects, `code_transcript_with_themes`
returns exactly those items and `pl.DataFrame` turns them into a table
with one row per array element carrying the matching field values.
When the reply is not valid JSON, the coder raises the parse error
carrying the stripped reply before any table is constructed, so
`process_folder` records the model call but writes no output file for
that transcript (nor for any later one). -/
theorem c9_coder_json_contract :
    (∀ (env : RunEnv) (text tp : String) (qte : List (String × String × String)),
        env.jsonLoads (pyStripStr (env.chatContent (systemPromptFor tp)
            (userPromptFor text))) = some (codedItemsJson qte) →
        code_transcript_with_themes env text tp = .ok (codedItemsJson qte) ∧
        ∃ t : Table, dataFrameOfItems (codedItemsJson qte) = some t ∧
          t.rows = qte.map (fun x => [x.1, x.2.1, x.2.2]) ∧
          (qte ≠ [] → t.columns = ["quote", "theme", "explanation"])) ∧
    (∀ (env : RunEnv) (tp tdir odir filename : String) (rest : List String) (raw : String),
        (∀ s u, env.jsonLoads (pyStripStr (env.chatContent s u)) = none) →
        isTranscriptName filename = true →
        load_transcript env (tdir ++ "/" ++ filename) = .ok raw →
        processFiles env tp tdir odir (filename :: rest) =
          ⟨[extract_interviewee_text raw], [],
           some (.modelResponseParse (pyStripStr (env.chatContent (systemPromptFor tp)
             (userPromptFor (extract_interviewee_text raw)))))⟩) := by
  constructor
  · intro env text tp qte h
    refine ⟨by simp [code_transcript_with_themes, h], ?_⟩
    cases qte with
    | nil => exact ⟨⟨[], []⟩, rfl, rfl, by simp⟩
    | cons x xs =>
      refine ⟨⟨["quote", "theme", "explanation"],
        (x :: xs).map (fun y => [y.1, y.2.1, y.2.2])⟩, ?_, rfl, fun _ => rfl⟩
      have hv := itemsVals_coded (x :: xs)
      simp only [List.map_cons] at hv
      simp [codedItemsJson, dataFrameOfItems, itemRow, itemFields, hv]
  · intro env tp tdir odir filename rest raw hjson hf hload
    simp [processFiles, hf, hload, code_transcript_with_themes, hjson]

/-- Witness for C9: a model answering the single well-formed coded
quote yields that item, and the non-JSON model aborts the `a.txt`
transcript with the parse error and no output. -/
theorem c9_coder_json_contract_witness :
    code_transcript_with_themes envGoodModel "text" "themes" =
      .ok (codedItemsJson [("q1", "t1", "e1")]) ∧
    processFiles envBadModel "tp" "transcripts" "out" ["a.txt"] =
      ⟨["hi"], [], some (.modelResponseParse "Sorry, I cannot do that.")⟩ := by
  constructor
  · exact (c9_coder_json_contract.1 envGoodModel "text" "themes" [("q1", "t1", "e1")] rfl).1
  · have h := c9_coder_json_contract.2 envBadModel "tp" "transcripts" "out" "a.txt" []
      "P: hi" (fun s u => rfl) (by decide) rfl
    exact h.trans (by decide)
